import Mathlib

/-!
Verification development for the Auto-Reels-Render worker.

Shallow embedding of the render worker's pure core: the beat-sync pacing
pipeline, the scene builder, the ASS subtitle generator, the idempotent
finalization protocol, the Remotion poll loop, and the FFmpeg audio-mixing
filter construction. External effects (database rows, subprocess probes,
network polls) are modelled by explicit state records and environment
parameters; machine floats are modelled by exact rationals.
-/

/-- JavaScript Math.round: round half toward positive infinity. -/
def jsRound (q : ℚ) : ℤ := ⌊q + 1 / 2⌋

/-- Character-list version of "the needle starts the haystack" (case-sensitive). -/
def startsWithCL : List Char → List Char → Bool
  | [], _ => true
  | _ :: _, [] => false
  | a :: as, b :: bs => a = b && startsWithCL as bs

/-- Character-list substring test: does the needle occur somewhere in the haystack. -/
def hasSubstrCL (needle : List Char) : List Char → Bool
  | [] => startsWithCL needle []
  | c :: rest => startsWithCL needle (c :: rest) || hasSubstrCL needle rest

/-- String substring test, used to model JavaScript regex/`includes` checks. -/
def strContains (haystack needle : String) : Bool :=
  hasSubstrCL needle.data haystack.data

/-! ## Beat-sync pacing engine (src/beat-sync) -/

/-- Pacing styles of `beat-sync/types.ts`. -/
inductive PacingStyle where
  | smooth
  | rhythmic
  | viral
  | dramatic
deriving DecidableEq, Repr

/-- Every k-th element of a list: indices k-1, 2k-1, ... . Mirrors the loop
`for (let i = period - 1; i < beatFrames.length; i += period) out.push(beatFrames[i])`
in `detectStrongBeats`. -/
def everyKth (l : List ℤ) (k : ℕ) : List ℤ :=
  (List.range (l.length / k)).map (fun j => l.getD ((j + 1) * k - 1) 0)

/-- Consecutive gaps `beatFrames[i] - beatFrames[i-1]` of `detectStrongBeats`. -/
def beatGaps (beatFrames : List ℤ) : List ℤ :=
  List.zipWith (fun a b => a - b) beatFrames.tail beatFrames

/-- Median inter-beat gap: `[...gaps].sort((a, b) => a - b)[Math.floor(gaps.length / 2)] ?? 0`
when gaps is nonempty, otherwise 0. -/
def medianGap (beatFrames : List ℤ) : ℤ :=
  let gaps := beatGaps beatFrames
  if gaps.length > 0 then
    (gaps.insertionSort (· ≤ ·)).getD (gaps.length / 2) 0
  else 0

/-- Constant DEFAULT_PERIOD of detectStrongBeats.ts. -/
def DEFAULT_PERIOD : ℕ := 4

/-- Constant MIN_STRONG_BEAT_INTERVAL_FRAMES of detectStrongBeats.ts (about 2 s at 30 fps). -/
def MIN_STRONG_BEAT_INTERVAL_FRAMES : ℤ := 60

/-- Constant MIN_PERIOD of detectStrongBeats.ts. -/
def MIN_PERIOD : ℕ := 2

/-- The nominal strong-beat period chosen from the pacing style:
dramatic gives 2, rhythmic and viral give 4, anything else the default 4. -/
def nominalPeriod (pacingStyle : Option PacingStyle) : ℕ :=
  match pacingStyle with
  | some .dramatic => 2
  | some .rhythmic => 4
  | some .viral => 4
  | _ => DEFAULT_PERIOD

/-- Embedding of `detectStrongBeats` (detectStrongBeats.ts). The fps and
totalDurationInFrames options are accepted but unused in the source body. -/
def detectStrongBeats (beatFrames : List ℤ) (pacingStyle : Option PacingStyle) : List ℤ :=
  let period := nominalPeriod pacingStyle
  if beatFrames.length < period then []
  else
    let strongBeatInterval : ℤ := (period : ℤ) * medianGap beatFrames
    let period :=
      if strongBeatInterval > MIN_STRONG_BEAT_INTERVAL_FRAMES ∧ period > MIN_PERIOD
      then MIN_PERIOD else period
    everyKth beatFrames period

/-- Parameter record of `generateCutPoints` (generateCutPoints.ts). -/
structure GenerateCutPointsParams where
  beatFrames : List ℤ
  strongBeatFrames : List ℤ
  pacingStyle : PacingStyle
  imageCount : ℕ
  totalDurationInFrames : ℤ

/-- Embedding of `generateCutPoints`: always returns the empty cut set, so
every image receives equal screen time. -/
def generateCutPoints (_params : GenerateCutPointsParams) : List ℤ :=
  []

/-- Embedding of `extractBeats` (extractBeats.ts). The aubio subprocess output
is modelled as the list of parsed stdout numbers (a failed invocation is the
empty list); the source keeps only finite values with `t >= 0`, which for
rationals is the non-negativity filter. -/
def extractBeats (rawStdoutValues : List ℚ) : List ℚ :=
  rawStdoutValues.filter (fun t => 0 ≤ t)

/-- Embedding of `extractBeatsFallback` (extractBeats.ts): a deterministic beat
grid 0, interval, 2*interval, ... of all multiples strictly below
`sec = max 1 audioDurationSec`, with the interval chosen from the duration. -/
def extractBeatsFallback (audioDurationSec : ℚ) : List ℚ :=
  let sec : ℚ := max 1 audioDurationSec
  let interval : ℚ :=
    if sec < 20 then 1 / 2
    else if sec < 45 then 11 / 20
    else if sec < 90 then 3 / 5
    else 13 / 20
  (List.range ⌈sec / interval⌉₊).map (fun k : ℕ => (k : ℚ) * interval)

/-- Embedding of `getAudioDurationSec` (extractBeats.ts): the ffprobe result is
modelled as `none` on subprocess failure or a non-finite parse, `some sec`
otherwise; the source returns `sec` when it is positive and 0 otherwise. -/
def getAudioDurationSec (rawProbe : Option ℚ) : ℚ :=
  match rawProbe with
  | none => 0
  | some sec => if 0 < sec then sec else 0

/-- Frame-rate constant FPS of beat-sync/index.ts. -/
def FPS : ℚ := 30

/-- Constant MIN_DURATION_FRAMES of beat-sync/index.ts (30 s at 30 fps). -/
def MIN_DURATION_FRAMES : ℤ := 900

/-- Constant MAX_ALLOWED_FRAMES of beat-sync/index.ts (60 s at 30 fps). -/
def MAX_ALLOWED_FRAMES : ℤ := 1800

/-- Constant DURATION_FALLBACK_SEC of beat-sync/index.ts. -/
def DURATION_FALLBACK_SEC : ℚ := 45

/-- External-world inputs consumed by one `runBeatSync` call: the ffprobe
duration result and the raw aubio beat output. -/
structure BeatSyncEnv where
  rawProbe : Option ℚ
  rawBeatStdout : List ℚ

/-- Result record of `runBeatSync`, plus a flag recording whether the
degraded-mode warning was logged. -/
structure RunBeatSyncOut where
  beatFrames : List ℤ
  strongBeatFrames : List ℤ
  cutFrames : List ℤ
  totalDurationInFrames : ℤ
  warned : Bool
deriving DecidableEq, Repr

/-- Embedding of `runBeatSync` (beat-sync/index.ts): probe the duration,
substitute the 45 s fallback (with a warning) when the probe fails or is
non-positive, clamp the frame total to [MIN_DURATION_FRAMES, MAX_ALLOWED_FRAMES],
then run beat extraction (with the synthetic fallback grid when empty),
strong-beat detection and cut-point generation. -/
def runBeatSync (env : BeatSyncEnv) (pacingStyle : PacingStyle) (imageCount : ℕ)
    (fps : ℚ := FPS) : RunBeatSyncOut :=
  let probed := getAudioDurationSec env.rawProbe
  let warned := probed ≤ 0
  let durationSec := if probed ≤ 0 then DURATION_FALLBACK_SEC else probed
  let totalDurationInFrames :=
    max MIN_DURATION_FRAMES (min MAX_ALLOWED_FRAMES (jsRound (durationSec * fps)))
  if pacingStyle = .smooth then
    { beatFrames := [], strongBeatFrames := [], cutFrames := []
      totalDurationInFrames := totalDurationInFrames, warned := warned }
  else
    let beatTimesSec :=
      let extracted := extractBeats env.rawBeatStdout
      if extracted = [] then extractBeatsFallback durationSec else extracted
    let beatFrames := beatTimesSec.map (fun t => jsRound (t * fps))
    let strongBeatFrames := detectStrongBeats beatFrames (some pacingStyle)
    let cutFrames := generateCutPoints
      { beatFrames := beatFrames, strongBeatFrames := strongBeatFrames
        pacingStyle := pacingStyle, imageCount := imageCount
        totalDurationInFrames := totalDurationInFrames }
    { beatFrames := beatFrames, strongBeatFrames := strongBeatFrames
      cutFrames := cutFrames, totalDurationInFrames := totalDurationInFrames
      warned := warned }

/-! ## Scene builder (src/engines/PacingEngine.ts) -/

/-- One scene of the Remotion TransitionSeries. -/
structure PacingScene where
  durationInFrames : ℤ
  imageUrl : String
  imageIndex : ℕ
deriving DecidableEq, Repr

/-- Embedding of `buildScenes` (PacingEngine.ts). With no cut frames the total
duration is split evenly, each scene lengthened by the transition overlap:
`Math.floor((total + (n-1)*overlap) / n)`. With cut frames, segments are the
gaps between the sorted boundaries `[0, ...cuts, total]`, each at least 1
frame, assigned to images round-robin; a shortfall of segments versus images
is absorbed into the final scene. The pacingStyle parameter is unused in the
source body. -/
def buildScenes (imageUrls : List String) (totalDurationInFrames : ℤ)
    (cutFrames : List ℤ) (_pacingStyle : PacingStyle)
    (transitionOverlapFrames : ℤ) : List PacingScene :=
  let imageCount : ℕ := max 1 imageUrls.length
  let urls := if imageUrls.length > 0 then imageUrls else [""]
  if cutFrames = [] then
    let seqDuration : ℤ :=
      Int.fdiv (totalDurationInFrames + ((imageCount : ℤ) - 1) * transitionOverlapFrames)
        (imageCount : ℤ)
    urls.enum.map (fun p =>
      { durationInFrames := seqDuration, imageUrl := p.2, imageIndex := p.1 })
  else
    let boundaries := 0 :: (cutFrames.insertionSort (· ≤ ·) ++ [totalDurationInFrames])
    let segments := List.zipWith (fun b a => max 1 (b - a)) boundaries.tail boundaries
    let scenes := segments.enum.map (fun p =>
      { durationInFrames := p.2, imageUrl := urls.getD (p.1 % imageCount) ""
        imageIndex := p.1 % imageCount })
    if scenes.length < imageCount then
      let extendBy := ((imageCount : ℤ) - (scenes.length : ℤ)) *
        Int.fdiv totalDurationInFrames (imageCount : ℤ)
      match scenes.getLast? with
      | none => scenes
      | some last =>
        scenes.dropLast ++ [{ last with durationInFrames := last.durationInFrames + extendBy }]
    else scenes

/-! ## ASS subtitle generator (src/ass-generator.ts) -/

/-- Word-level caption timing. The source field `end` is a Lean keyword and is
renamed `stop` here. -/
structure AssWord where
  start : ℚ
  stop : ℚ
  text : String
deriving DecidableEq, Repr

/-- One caption cue: interval, display text, optional word-level timings
(an empty list models a missing `words` array). -/
structure AssCue where
  start : ℚ
  stop : ℚ
  text : String
  words : List AssWord
deriving DecidableEq, Repr

/-- ASCII lowercasing, modelling JavaScript `toLowerCase` / the regex `i` flag
on the ASCII range (Devanagari text is unaffected by case folding). -/
def strToLower (s : String) : String :=
  String.mk (s.data.map Char.toLower)

/-- Embedding of `isHindiLanguage`: `Boolean(lang && /hindi|hi|हिंदी/i.test(String(lang)))`.
The regex matches exactly when the case-folded text contains the substring
"hi" (the alternative "hindi" is subsumed by "hi") or contains "हिंदी". -/
def isHindiLanguage (lang : Option String) : Bool :=
  match lang with
  | none => false
  | some l => l ≠ "" && (strContains (strToLower l) "hi" || strContains l "हिंदी")

/-- Constant FONT_HINDI of ass-generator.ts. -/
def FONT_HINDI : String := "Noto Sans Devanagari"

/-- Constant FONT_DEFAULT of ass-generator.ts. -/
def FONT_DEFAULT : String := "Arial"

/-- Floor-based remainder, matching JavaScript `%` on the non-negative inputs
the generator receives. -/
def qRem (a b : ℚ) : ℚ := a - b * ⌊a / b⌋

/-- JavaScript `padStart(2, '0')`. -/
def pad2 (s : String) : String :=
  if s.length ≥ 2 then s else if s.length = 1 then "0" ++ s else "00"

/-- Embedding of `AssGenerator.formatTime`: seconds to `H:MM:SS.CC`. -/
def assFormatTime (seconds : ℚ) : String :=
  let h : ℤ := ⌊seconds / 3600⌋
  let m : ℤ := ⌊qRem seconds 3600 / 60⌋
  let s : ℤ := ⌊qRem seconds 60⌋
  let cs : ℤ := ⌊qRem seconds 1 * 100⌋
  toString h ++ ":" ++ pad2 (toString m) ++ ":" ++ pad2 (toString s) ++ "." ++ pad2 (toString cs)

/-- The per-word karaoke highlight durations of `AssGenerator.generate`:
the running cursor starts at the cue's visual start time, each word's duration
is `w.end - cursor` clamped below at 0, and the cursor then advances to
`w.end`. -/
def karaokeDurations (cursor : ℚ) : List AssWord → List ℚ
  | [] => []
  | w :: ws => max 0 (w.stop - cursor) :: karaokeDurations w.stop ws

/-- The karaoke dialogue text of `AssGenerator.generate`: per word a
`{\k<centiseconds>}` tag (duration rounded to centiseconds) followed by the
word and a space. -/
def karaokeText (cursor : ℚ) : List AssWord → String
  | [] => ""
  | w :: ws =>
    "\x7b\\k" ++ toString (jsRound (max 0 (w.stop - cursor) * 100)) ++ "\x7d"
      ++ w.text ++ " " ++ karaokeText w.stop ws

/-- The style line of `AssGenerator.generate`, selected by preset, with the
alignment code and vertical margin derived from the position. -/
def assStyleDef (fontName preset position : String) : String :=
  let align := if position = "top" then "8" else if position = "center" then "5" else "2"
  let marginV := if position = "top" then "100" else if position = "center" then "50" else "150"
  let p := strToLower preset
  if p = "bold-stroke" then
    "Style: Default," ++ fontName ++ ",32,&H00FFFFFF,&H00FFFF00,&H00000000,&H00000000,1,0,0,0,100,100,0,0,1,4,0,"
      ++ align ++ ",10,10," ++ marginV ++ ",1"
  else if p = "red-highlight" then
    "Style: Default," ++ fontName ++ ",32,&H00FFFFFF,&H000000FF,&H000000FF,&H00000000,1,0,0,0,100,100,0,0,1,4,2,"
      ++ align ++ ",10,10," ++ marginV ++ ",1"
  else if p = "karaoke-card" then
    "Style: Default," ++ fontName ++ ",32,&H00FFFFFF,&H00FF00FF,&H00000000,&H80FF00FF,1,0,0,0,100,100,0,0,3,4,0,"
      ++ align ++ ",10,10," ++ marginV ++ ",1"
  else if p = "beast" then
    "Style: Default," ++ fontName ++ ",32,&H00FFFFFF,&H000000FF,&H00000000,&H00000000,1,1,0,0,100,100,0,0,1,5,0,"
      ++ align ++ ",10,10," ++ marginV ++ ",1"
  else
    "Style: Default," ++ fontName ++ ",32,&H00FFFFFF,&H00FFFF00,&H80000000,&H00000000,1,0,0,0,100,100,0,0,1,2,2,"
      ++ align ++ ",10,10," ++ marginV ++ ",1"

/-- The fixed ASS header of `AssGenerator.generate`. -/
def assHeader : String :=
  "[Script Info]\nScriptType: v4.00+\nPlayResX: 720\nPlayResY: 1280\n\n[V4+ Styles]\nFormat: Name, Fontname, Fontsize, PrimaryColour, SecondaryColour, OutlineColour, BackColour, Bold, Italic, Underline, StrikeOut, ScaleX, ScaleY, Spacing, Angle, BorderStyle, Outline, Shadow, Alignment, MarginL, MarginR, MarginV, Encoding\n"

/-- One `Dialogue:` event line of `AssGenerator.generate`: cues with word
timings get karaoke text (trimmed of the trailing space), cues without render
their plain text. -/
def assDialogueLine (cap : AssCue) : String :=
  let text := if cap.words ≠ [] then (karaokeText cap.start cap.words).trim else cap.text
  "Dialogue: 0," ++ assFormatTime cap.start ++ "," ++ assFormatTime cap.stop
    ++ ",Default,,0,0,0,," ++ text ++ "\n"

/-- Embedding of `AssGenerator.generate`: header, one style line chosen by
preset/position with the language-aware font, the events header, then one
dialogue line per cue. -/
def assGenerate (captions : List AssCue) (preset position : String)
    (language : Option String := none) : String :=
  let fontName := if isHindiLanguage language then FONT_HINDI else FONT_DEFAULT
  assHeader ++ assStyleDef fontName preset position
    ++ "\n\n[Events]\nFormat: Layer, Start, End, Style, Name, MarginL, MarginR, MarginV, Effect, Text\n"
    ++ String.join (captions.map assDialogueLine)

/-! ## Finalization protocol (src/finalize.ts, src/db.ts, src/mail.ts)

The database rows touched by one job (its `media_steps` row, its `media` row,
its user's balance) and the externally observable side-effect counts are
modelled as one state record; the mail and billing collaborators' outcomes
are environment flags. -/

/-- Persisted state of the step and media rows of one job, the user's credit
balance, and side-effect counters (sent emails, recorded credit transactions,
logged finalize errors). -/
structure FinState where
  stepStatus : String
  stepBlob : Option String
  stepError : Option String
  mediaStatus : String
  mediaBlob : Option String
  creditsBalance : ℤ
  deductionCount : ℕ
  emailsSent : ℕ
  errorLogsCount : ℕ
deriving DecidableEq, Repr

/-- Result row of `DbService.getMediaInfo` (user id, email and input_config
fields relevant to finalization; `none` models SQL NULL / a missing key). -/
structure MediaInfo where
  userId : Option String
  email : Option String
  duration : Option String
  topic : Option String
deriving DecidableEq, Repr

/-- Environment of one finalization run: the `getMediaInfo` result (`none`
when the media row is absent) and whether the two best-effort collaborators
throw. `emailSideFails` covers the whole email try-block (signed-URL
generation and the send); `creditSideFails` covers a deduction failure other
than an insufficient balance. -/
structure FinEnv where
  mediaInfo : Option MediaInfo
  emailSideFails : Bool
  creditSideFails : Bool
deriving DecidableEq, Repr

/-- Embedding of `DbService.updateStepStatus`: unconditional update of status,
blob id and error message. -/
def updateStepStatus (status : String) (blobId : Option String)
    (errorMessage : Option String) (s : FinState) : FinState :=
  { s with stepStatus := status, stepBlob := blobId, stepError := errorMessage }

/-- Embedding of `DbService.updateStepStatusOnlyIfProcessing`: the `WHERE
status = 'processing'` conditional update; returns whether a row was updated. -/
def updateStepStatusOnlyIfProcessing (status : String) (blobId : Option String)
    (errorMessage : Option String) (s : FinState) : Bool × FinState :=
  if s.stepStatus = "processing" then
    (true, { s with stepStatus := status, stepBlob := blobId, stepError := errorMessage })
  else (false, s)

/-- Embedding of `DbService.finalizeMediaOnlyIfNotCompleted`: the `WHERE
status != 'completed'` conditional update; returns whether a row was updated. -/
def finalizeMediaOnlyIfNotCompleted (resultBlobId : String) (s : FinState) :
    Bool × FinState :=
  if s.mediaStatus ≠ "completed" then
    (true, { s with mediaStatus := "completed", mediaBlob := some resultBlobId })
  else (false, s)

/-- Embedding of `DbService.deductCredits`: throws when the user's balance is
below the amount (or when the collaborator fails for an external reason);
otherwise lowers the balance and records one credit transaction. -/
def deductCredits (env : FinEnv) (amount : ℤ) (s : FinState) : Except String FinState :=
  if env.creditSideFails then .error "deductCredits failed"
  else if s.creditsBalance < amount then .error "Insufficient credits"
  else .ok { s with creditsBalance := s.creditsBalance - amount
                    deductionCount := s.deductionCount + 1 }

/-- The signed-URL generation plus `MailService.sendRenderCompleteEmail` call
of `finalizeRenderSuccess`, as one fallible step counted by `emailsSent`. -/
def sendCompletionEmail (env : FinEnv) (s : FinState) : Except String FinState :=
  if env.emailSideFails then .error "email send failed"
  else .ok { s with emailsSent := s.emailsSent + 1 }

/-- The CREDIT_COSTS table of finalize.ts (default 1). -/
def creditCostOf (duration : String) : ℤ :=
  if duration = "30-60" then 1
  else if duration = "60-90" then 2
  else if duration = "90-120" then 3
  else 1

/-- Embedding of `finalizeRenderSuccess` (finalize.ts): conditionally mark the
step successful (the idempotency gate), then conditionally finalize the media,
then look up media info and perform the two best-effort side effects — the
completion email and the credit deduction — each with its failure caught and
counted as a logged error, never re-thrown. -/
def finalizeRenderSuccess (env : FinEnv) (resultBlobId : String) (s : FinState) : FinState :=
  let (stepUpdated, s) := updateStepStatusOnlyIfProcessing "success" (some resultBlobId) none s
  if !stepUpdated then s
  else
    let (mediaFinalized, s) := finalizeMediaOnlyIfNotCompleted resultBlobId s
    if !mediaFinalized then s
    else
      match env.mediaInfo with
      | none => s
      | some info =>
        let duration := info.duration.getD "30-60"
        let creditCost := creditCostOf duration
        let s :=
          match info.email with
          | none => s
          | some _ =>
            match sendCompletionEmail env s with
            | .ok s' => s'
            | .error _ => { s with errorLogsCount := s.errorLogsCount + 1 }
        match info.userId with
        | none => s
        | some _ =>
          match deductCredits env creditCost s with
          | .ok s' => s'
          | .error _ => { s with errorLogsCount := s.errorLogsCount + 1 }

/-! ## Remotion remote render client (src/remotion-render.ts, src/index.ts) -/

/-- One `getRenderProgress` poll result. `errorMessage = none` models a
missing or empty message (JavaScript `||` treats both as falsy). -/
structure RenderProgress where
  done : Bool
  fatalErrorEncountered : Bool
  errorMessage : Option String
  outKey : Option String
  outputFile : Option String
deriving DecidableEq, Repr

/-- The output-key resolution of the done branch of `runRemotionRender`:
`outKey ?? (typeof outputFile === 'string' && !outputFile.startsWith('http') ? outputFile : undefined)`. -/
def resolveObjectKey (p : RenderProgress) : Option String :=
  match p.outKey with
  | some k => some k
  | none =>
    match p.outputFile with
    | some f => if ¬ f.startsWith "http" then some f else none
    | none => none

/-- The fixed timeout message thrown after the 20-minute poll deadline. -/
def REMOTION_TIMEOUT_MSG : String := "Remotion render timeout (20 minutes)"

/-- Embedding of the poll loop of `runRemotionRender`: `progressAt i` is the
i-th `getRenderProgress` result, `fuel` the number of polls the 20-minute
deadline still allows. A done progress resolves the output key (the download,
upload and finalization that follow are outside this claim's scope and the
resolved key is returned); a fatal progress throws the remote error message
(with the fixed default when absent); an exhausted deadline throws the
distinct timeout error. -/
def pollRemotionRender (progressAt : ℕ → RenderProgress) : ℕ → ℕ → Except String String
  | 0, _ => .error REMOTION_TIMEOUT_MSG
  | fuel + 1, i =>
    let p := progressAt i
    if p.done then
      match resolveObjectKey p with
      | none => .error "Remotion render finished but no output key (outKey or non-URL outputFile)"
      | some k => .ok k
    else if p.fatalErrorEncountered then
      .error (p.errorMessage.getD "Remotion render failed")
    else
      pollRemotionRender progressAt fuel (i + 1)

/-- Embedding of the `remotionWorker` handler's catch (index.ts): on a failed
render it records the failure on the step via the unconditional
`updateStepStatus(stepId, 'failed', undefined, msg)` and re-throws; on success
it passes the result through. -/
def remotionWorkerHandle (r : Except String String) (s : FinState) :
    FinState × Except String String :=
  match r with
  | .ok v => (s, .ok v)
  | .error msg => (updateStepStatus "failed" none (some msg) s, .error msg)

/-! ## Local-encode audio mixing (src/processor.ts, step 4 of `VideoProcessor.process`) -/

/-- The audio-mixing filters and the final `-map` audio selector built by
`VideoProcessor.process`: the narration input (index after the image inputs)
is always the mix base; with background music present, narration is
volume-scaled at 1.0, music at the configured volume (the interpolated
numeral, default "0.2"), and the two are mixed with `amix`. -/
def buildAudioMix (assetCount : ℕ) (musicPresent : Bool) (musicVolume : Option String) :
    List String × String :=
  let voIndex := assetCount
  let musicIndex := voIndex + 1
  if musicPresent then
    let bgVol := musicVolume.getD "0.2"
    ([ "[" ++ toString voIndex ++ ":a]volume=1.0[vo];"
        ++ "[" ++ toString musicIndex ++ ":a]volume=" ++ bgVol ++ "[bg];"
        ++ "[vo][bg]amix=inputs=2:duration=first:dropout_transition=2[a_final]" ],
      "[a_final]")
  else ([], toString voIndex ++ ":a")

/-! ## Helper lemmas -/

theorem finalizeRenderSuccess_of_not_processing (env : FinEnv) (b : String) (s : FinState)
    (h : s.stepStatus ≠ "processing") : finalizeRenderSuccess env b s = s := by
  simp [finalizeRenderSuccess, updateStepStatusOnlyIfProcessing, h]

theorem finalizeRenderSuccess_of_completed (env : FinEnv) (b : String) (s : FinState)
    (h : s.stepStatus = "processing") (hm : s.mediaStatus = "completed") :
    finalizeRenderSuccess env b s =
      { s with stepStatus := "success", stepBlob := some b, stepError := none } := by
  simp [finalizeRenderSuccess, updateStepStatusOnlyIfProcessing,
    finalizeMediaOnlyIfNotCompleted, h, hm]

theorem finalizeRenderSuccess_stepStatus (env : FinEnv) (b : String) (s : FinState)
    (h : s.stepStatus = "processing") :
    (finalizeRenderSuccess env b s).stepStatus = "success" := by
  obtain ⟨info, ef, cf⟩ := env
  by_cases hm : s.mediaStatus = "completed"
  · rcases info with _ | ⟨uid, em, dur, top⟩ <;>
      simp [finalizeRenderSuccess, updateStepStatusOnlyIfProcessing,
        finalizeMediaOnlyIfNotCompleted, h, hm]
  · rcases info with _ | ⟨uid, em, dur, top⟩
    · simp [finalizeRenderSuccess, updateStepStatusOnlyIfProcessing,
        finalizeMediaOnlyIfNotCompleted, h, hm]
    · rcases em with _ | em <;> rcases uid with _ | uid <;> cases ef <;> cases cf <;>
        by_cases hb : s.creditsBalance < creditCostOf (dur.getD "30-60") <;>
        simp [finalizeRenderSuccess, updateStepStatusOnlyIfProcessing,
          finalizeMediaOnlyIfNotCompleted, sendCompletionEmail, deductCredits, h, hm, hb]

theorem finalizeRenderSuccess_mediaStatus (env : FinEnv) (b : String) (s : FinState)
    (h : s.stepStatus = "processing") (hm : s.mediaStatus ≠ "completed") :
    (finalizeRenderSuccess env b s).mediaStatus = "completed" := by
  obtain ⟨info, ef, cf⟩ := env
  rcases info with _ | ⟨uid, em, dur, top⟩
  · simp [finalizeRenderSuccess, updateStepStatusOnlyIfProcessing,
      finalizeMediaOnlyIfNotCompleted, h, hm]
  · rcases em with _ | em <;> rcases uid with _ | uid <;> cases ef <;> cases cf <;>
      by_cases hb : s.creditsBalance < creditCostOf (dur.getD "30-60") <;>
      simp [finalizeRenderSuccess, updateStepStatusOnlyIfProcessing,
        finalizeMediaOnlyIfNotCompleted, sendCompletionEmail, deductCredits, h, hm, hb]

/-! ## Claim C1: the finalization protocol is idempotent -/

/-- C1: `finalizeRenderSuccess` is idempotent. The step transition happens
only while the step is still "processing" (otherwise the call is a strict
no-op), the media is finalized only when not already "completed" (otherwise
only the step row changes and no email or billing side effect runs), and a
second invocation with the same step/media/result is a no-op. -/
theorem finalizeRenderSuccess_idempotent (env : FinEnv) (b : String) (s : FinState) :
    (s.stepStatus ≠ "processing" → finalizeRenderSuccess env b s = s)
    ∧ finalizeRenderSuccess env b (finalizeRenderSuccess env b s) = finalizeRenderSuccess env b s
    ∧ (s.stepStatus = "processing" → s.mediaStatus = "completed" →
        finalizeRenderSuccess env b s =
          { s with stepStatus := "success", stepBlob := some b, stepError := none }
        ∧ (finalizeRenderSuccess env b s).emailsSent = s.emailsSent
        ∧ (finalizeRenderSuccess env b s).deductionCount = s.deductionCount
        ∧ (finalizeRenderSuccess env b s).mediaStatus = s.mediaStatus) := by
  refine ⟨fun h => finalizeRenderSuccess_of_not_processing env b s h, ?_, ?_⟩
  · by_cases h : s.stepStatus = "processing"
    · have hs := finalizeRenderSuccess_stepStatus env b s h
      exact finalizeRenderSuccess_of_not_processing env b _ (by rw [hs]; decide)
    · rw [finalizeRenderSuccess_of_not_processing env b s h,
        finalizeRenderSuccess_of_not_processing env b s h]
  · intro h hm
    rw [finalizeRenderSuccess_of_completed env b s h hm]
    exact ⟨rfl, rfl, rfl, hm.symm ▸ rfl⟩

/-- Witness for C1 at concrete states: a step already marked "success" is left
untouched, and on a fresh "processing" state a second full invocation changes
nothing over the first. -/
theorem finalizeRenderSuccess_idempotent_witness :
    (finalizeRenderSuccess
        { mediaInfo := some { userId := some "u1", email := some "u@example.com"
                              duration := some "30-60", topic := some "Topic" }
          emailSideFails := false, creditSideFails := false } "blob"
        { stepStatus := "success", stepBlob := some "old", stepError := none
          mediaStatus := "completed", mediaBlob := some "old", creditsBalance := 5
          deductionCount := 1, emailsSent := 1, errorLogsCount := 0 }
      = { stepStatus := "success", stepBlob := some "old", stepError := none
          mediaStatus := "completed", mediaBlob := some "old", creditsBalance := 5
          deductionCount := 1, emailsSent := 1, errorLogsCount := 0 })
    ∧ (finalizeRenderSuccess
        { mediaInfo := some { userId := some "u1", email := some "u@example.com"
                              duration := some "30-60", topic := some "Topic" }
          emailSideFails := false, creditSideFails := false } "blob"
        (finalizeRenderSuccess
          { mediaInfo := some { userId := some "u1", email := some "u@example.com"
                                duration := some "30-60", topic := some "Topic" }
            emailSideFails := false, creditSideFails := false } "blob"
          { stepStatus := "processing", stepBlob := none, stepError := none
            mediaStatus := "processing", mediaBlob := none, creditsBalance := 5
            deductionCount := 0, emailsSent := 0, errorLogsCount := 0 })
      = finalizeRenderSuccess
          { mediaInfo := some { userId := some "u1", email := some "u@example.com"
                                duration := some "30-60", topic := some "Topic" }
            emailSideFails := false, creditSideFails := false } "blob"
          { stepStatus := "processing", stepBlob := none, stepError := none
            mediaStatus := "processing", mediaBlob := none, creditsBalance := 5
            deductionCount := 0, emailsSent := 0, errorLogsCount := 0 }) :=
  ⟨(finalizeRenderSuccess_idempotent _ "blob" _).1 (by decide),
    (finalizeRenderSuccess_idempotent _ "blob" _).2.1⟩

/-! ## Claim C5: best-effort side effects after the committed transition -/

/-- C5: once the authoritative media transition has committed inside
`finalizeRenderSuccess`, a thrown email or credit-deduction error is caught
and logged and never re-thrown (the function, of pure state-transformer type,
returns a final state on every input), and a failure of the email step does
not prevent the credit deduction from being attempted (nor vice versa: the
email is sent before the deduction runs). -/
theorem finalizeRenderSuccess_best_effort (env : FinEnv) (b : String) (s : FinState)
    (info : MediaInfo) (em uid : String)
    (h : s.stepStatus = "processing") (hm : s.mediaStatus ≠ "completed")
    (hinfo : env.mediaInfo = some info) (hem : info.email = some em)
    (huid : info.userId = some uid) :
    (finalizeRenderSuccess env b s).mediaStatus = "completed"
    ∧ (finalizeRenderSuccess env b s).stepStatus = "success"
    ∧ (env.emailSideFails = true → env.creditSideFails = false →
        creditCostOf (info.duration.getD "30-60") ≤ s.creditsBalance →
        (finalizeRenderSuccess env b s).errorLogsCount = s.errorLogsCount + 1
        ∧ (finalizeRenderSuccess env b s).emailsSent = s.emailsSent
        ∧ (finalizeRenderSuccess env b s).deductionCount = s.deductionCount + 1)
    ∧ (env.emailSideFails = false → env.creditSideFails = true →
        (finalizeRenderSuccess env b s).errorLogsCount = s.errorLogsCount + 1
        ∧ (finalizeRenderSuccess env b s).emailsSent = s.emailsSent + 1
        ∧ (finalizeRenderSuccess env b s).deductionCount = s.deductionCount)
    ∧ (env.emailSideFails = true → env.creditSideFails = true →
        (finalizeRenderSuccess env b s).errorLogsCount = s.errorLogsCount + 2
        ∧ (finalizeRenderSuccess env b s).emailsSent = s.emailsSent
        ∧ (finalizeRenderSuccess env b s).deductionCount = s.deductionCount) := by
  refine ⟨finalizeRenderSuccess_mediaStatus env b s h hm,
    finalizeRenderSuccess_stepStatus env b s h, ?_, ?_, ?_⟩
  · intro hef hcf hbal
    simp [finalizeRenderSuccess, updateStepStatusOnlyIfProcessing,
      finalizeMediaOnlyIfNotCompleted, sendCompletionEmail, deductCredits,
      h, hm, hinfo, hem, huid, hef, hcf, not_lt.mpr hbal]
  · intro hef hcf
    simp [finalizeRenderSuccess, updateStepStatusOnlyIfProcessing,
      finalizeMediaOnlyIfNotCompleted, sendCompletionEmail, deductCredits,
      h, hm, hinfo, hem, huid, hef, hcf]
  · intro hef hcf
    simp [finalizeRenderSuccess, updateStepStatusOnlyIfProcessing,
      finalizeMediaOnlyIfNotCompleted, sendCompletionEmail, deductCredits,
      h, hm, hinfo, hem, huid, hef, hcf]

/-- Witness for C5: a concrete job whose email send fails while the deduction
succeeds still logs one error, sends nothing, and records the deduction. -/
theorem finalizeRenderSuccess_best_effort_witness :
    (finalizeRenderSuccess
        { mediaInfo := some { userId := some "u1", email := some "u@example.com"
                              duration := some "60-90", topic := some "Topic" }
          emailSideFails := true, creditSideFails := false } "blob"
        { stepStatus := "processing", stepBlob := none, stepError := none
          mediaStatus := "processing", mediaBlob := none, creditsBalance := 5
          deductionCount := 0, emailsSent := 0, errorLogsCount := 0 }).errorLogsCount = 1
    ∧ (finalizeRenderSuccess
        { mediaInfo := some { userId := some "u1", email := some "u@example.com"
                              duration := some "60-90", topic := some "Topic" }
          emailSideFails := true, creditSideFails := false } "blob"
        { stepStatus := "processing", stepBlob := none, stepError := none
          mediaStatus := "processing", mediaBlob := none, creditsBalance := 5
          deductionCount := 0, emailsSent := 0, errorLogsCount := 0 }).deductionCount = 1 :=
  ⟨((finalizeRenderSuccess_best_effort _ "blob" _ _ "u@example.com" "u1"
      rfl (by decide) rfl rfl rfl).2.2.1 rfl rfl (by decide)).1,
    ((finalizeRenderSuccess_best_effort _ "blob" _ _ "u@example.com" "u1"
      rfl (by decide) rfl rfl rfl).2.2.1 rfl rfl (by decide)).2.2⟩


/-! ## Claim C2: equal-split scene building -/

/-- With a nonempty url list and empty cuts, `buildScenes` is the enum map
assigning every scene the equal-split duration. -/
theorem buildScenes_no_cuts_eq (urls : List String) (T o : ℤ) (style : PacingStyle)
    (hne : urls ≠ []) :
    buildScenes urls T [] style o =
      urls.enum.map (fun p =>
        { durationInFrames :=
            Int.fdiv (T + ((urls.length : ℤ) - 1) * o) (urls.length : ℤ)
          imageUrl := p.2, imageIndex := p.1 }) := by
  have hlen : 0 < urls.length := List.length_pos.mpr hne
  have hmax : max 1 urls.length = urls.length := max_eq_right hlen
  simp [buildScenes, hlen, hmax]

/-- C2 (amended): for a nonempty asset list, positive total duration and a
transition overlap of at least one frame, `buildScenes` with no cut points
returns the assets in order with dense indices 0..N-1, every scene's duration
equal to `floor((T + (N-1)*o) / N)` and positive, and the summed durations
within `(N-1)*o` of the total duration. -/
theorem buildScenes_equal_split_spec (urls : List String) (T o : ℤ) (style : PacingStyle)
    (hne : urls ≠ []) (hT : 1 ≤ T) (ho : 1 ≤ o) :
    ((buildScenes urls T [] style o).map PacingScene.imageUrl = urls)
    ∧ ((buildScenes urls T [] style o).map PacingScene.imageIndex = List.range urls.length)
    ∧ ((buildScenes urls T [] style o).map PacingScene.durationInFrames
        = List.replicate urls.length
            (Int.fdiv (T + ((urls.length : ℤ) - 1) * o) (urls.length : ℤ)))
    ∧ (∀ sc ∈ buildScenes urls T [] style o, 0 < sc.durationInFrames)
    ∧ (((buildScenes urls T [] style o).map PacingScene.durationInFrames).sum - T
        ≤ ((urls.length : ℤ) - 1) * o)
    ∧ (T - ((buildScenes urls T [] style o).map PacingScene.durationInFrames).sum
        ≤ ((urls.length : ℤ) - 1) * o) := by
  have hlen : 0 < urls.length := List.length_pos.mpr hne
  have hN1 : (1 : ℤ) ≤ (urls.length : ℤ) := by exact_mod_cast hlen
  have hNn : ((urls.length : ℤ) - 1) * o ≥ 0 := mul_nonneg (by linarith) (by linarith)
  have hNo : ((urls.length : ℤ) - 1) ≤ ((urls.length : ℤ) - 1) * o :=
    le_mul_of_one_le_right (by linarith) ho
  have ha : (0 : ℤ) ≤ T + ((urls.length : ℤ) - 1) * o := by linarith
  have hfd : Int.fdiv (T + ((urls.length : ℤ) - 1) * o) (urls.length : ℤ)
      = (T + ((urls.length : ℤ) - 1) * o) / (urls.length : ℤ) :=
    Int.fdiv_eq_ediv _ (by linarith)
  have hub : (T + ((urls.length : ℤ) - 1) * o) / (urls.length : ℤ) * (urls.length : ℤ)
      ≤ T + ((urls.length : ℤ) - 1) * o := Int.ediv_mul_le _ (by linarith)
  have hlt : T + ((urls.length : ℤ) - 1) * o
      < ((T + ((urls.length : ℤ) - 1) * o) / (urls.length : ℤ) + 1) * (urls.length : ℤ) :=
    Int.lt_ediv_add_one_mul_self _ (by linarith)
  have hq1 : 1 ≤ (T + ((urls.length : ℤ) - 1) * o) / (urls.length : ℤ) := by
    rw [Int.le_ediv_iff_mul_le (by linarith : (0 : ℤ) < (urls.length : ℤ))]
    linarith
  rw [buildScenes_no_cuts_eq urls T o style hne]
  have hmapdur : ((urls.enum.map (fun p =>
      ({ durationInFrames :=
            Int.fdiv (T + ((urls.length : ℤ) - 1) * o) (urls.length : ℤ)
         imageUrl := p.2, imageIndex := p.1 } : PacingScene))).map
        PacingScene.durationInFrames)
      = List.replicate urls.length
          (Int.fdiv (T + ((urls.length : ℤ) - 1) * o) (urls.length : ℤ)) := by
    rw [List.map_map]
    have := List.map_const' urls.enum
      (Int.fdiv (T + ((urls.length : ℤ) - 1) * o) (urls.length : ℤ))
    rw [show ((PacingScene.durationInFrames ∘ fun p : ℕ × String =>
        ({ durationInFrames :=
              Int.fdiv (T + ((urls.length : ℤ) - 1) * o) (urls.length : ℤ)
           imageUrl := p.2, imageIndex := p.1 } : PacingScene)))
        = (fun _ : ℕ × String =>
            Int.fdiv (T + ((urls.length : ℤ) - 1) * o) (urls.length : ℤ)) from rfl]
    rw [this, List.enum_length]
  have hsum : ((urls.enum.map (fun p =>
      ({ durationInFrames :=
            Int.fdiv (T + ((urls.length : ℤ) - 1) * o) (urls.length : ℤ)
         imageUrl := p.2, imageIndex := p.1 } : PacingScene))).map
        PacingScene.durationInFrames).sum
      = (urls.length : ℤ) * ((T + ((urls.length : ℤ) - 1) * o) / (urls.length : ℤ)) := by
    rw [hmapdur, hfd]
    simp [List.sum_replicate, nsmul_eq_mul]
  refine ⟨?_, ?_, hmapdur, ?_, ?_, ?_⟩
  · rw [List.map_map]
    exact List.enum_map_snd urls
  · rw [List.map_map]
    exact List.enum_map_fst urls
  · intro sc hsc
    rw [List.mem_map] at hsc
    obtain ⟨p, _, hp⟩ := hsc
    rw [← hp]
    simpa [hfd] using hq1
  · rw [hsum]
    nlinarith [hub]
  · rw [hsum]
    nlinarith [hlt, hNo, hNn]

/-- Counterexample to C2 as stated: with transition overlap 0, two assets and
total duration 3, each scene's duration is floor(3/2) = 1, so the durations
sum to 2, which is not within the claimed `(N-1)*overlap = 0` tolerance of 3. -/
theorem buildScenes_equal_split_counterexample :
    ((buildScenes ["a", "b"] 3 [] .smooth 0).map PacingScene.durationInFrames).sum = 2
    ∧ ¬ (|((buildScenes ["a", "b"] 3 [] .smooth 0).map PacingScene.durationInFrames).sum - 3|
          ≤ ((2 : ℤ) - 1) * 0) := by
  constructor
  · rfl
  · decide

/-- Witness for C2 at three assets, total 900 frames, overlap 20: every scene
lasts floor(940/3) = 313 frames and the sum 939 is within 40 frames of 900. -/
theorem buildScenes_equal_split_witness :
    ((buildScenes ["a", "b", "c"] 900 [] .smooth 20).map PacingScene.durationInFrames
      = List.replicate 3 313)
    ∧ (900 - ((buildScenes ["a", "b", "c"] 900 [] .smooth 20).map
        PacingScene.durationInFrames).sum ≤ ((3 : ℤ) - 1) * 20) := by
  have h := buildScenes_equal_split_spec ["a", "b", "c"] 900 20 .smooth
    (by decide) (by decide) (by decide)
  refine ⟨?_, ?_⟩
  · rw [h.2.2.1]
    decide
  · exact_mod_cast h.2.2.2.2.2

/-! ## Claim C3: karaoke highlight durations -/

theorem karaokeDurations_sum_aux (c : ℚ) (ws : List AssWord) (hne : ws ≠ [])
    (hchain : List.Chain' (· ≤ ·) (c :: ws.map AssWord.stop)) :
    (karaokeDurations c ws).sum = (ws.getLast hne).stop - c := by
  induction ws generalizing c with
  | nil => exact absurd rfl hne
  | cons w ws ih =>
    have hcw : c ≤ w.stop ∧ List.Chain' (· ≤ ·) (w.stop :: ws.map AssWord.stop) := by
      simpa [List.chain'_cons] using hchain
    cases ws with
    | nil =>
      simp [karaokeDurations, List.getLast, max_eq_right (sub_nonneg.mpr hcw.1)]
    | cons w2 ws2 =>
      have hne2 : (w2 :: ws2) ≠ [] := by simp
      rw [karaokeDurations, List.sum_cons, ih w.stop hne2 hcw.2,
        List.getLast_cons hne2, max_eq_right (sub_nonneg.mpr hcw.1)]
      ring

/-- C3 (amended): per-word highlight durations are `thisWordEnd - runningCursor`
with the cursor starting at the cue's visual start and advancing to each
word's end (negatives clamped to zero, by definition of `karaokeDurations`);
whenever the word end times are non-decreasing and start at or after the cue's
start (so no clamping fires), the durations sum — lead-in included in the
first word's duration — to exactly `lastWordEnd - cueStart`, which equals
`cueEnd - cueStart` exactly when the last word ends at the cue's end. -/
theorem karaokeDurations_roundtrip (capStart capEnd : ℚ) (words : List AssWord)
    (hne : words ≠ [])
    (hchain : List.Chain' (· ≤ ·) (capStart :: words.map AssWord.stop)) :
    (karaokeDurations capStart words).sum = (words.getLast hne).stop - capStart
    ∧ ((words.getLast hne).stop = capEnd →
        (karaokeDurations capStart words).sum = capEnd - capStart) := by
  have h := karaokeDurations_sum_aux capStart words hne hchain
  exact ⟨h, fun he => by rw [h, he]⟩

/-- Counterexample to C3 as stated: the cue [0, 5] with a single word ending at
2 emits highlight durations summing to 2 (the final silent 3 s are not part of
any word's highlight), not `cueEnd - cueStart = 5`. -/
theorem karaokeDurations_counterexample :
    (karaokeDurations 0 [{ start := 1, stop := 2, text := "hello" }]).sum ≠ (5 : ℚ) - 0 := by
  simp [karaokeDurations]

/-- Witness for C3: two words ending at 1 and 2 on the cue [0, 2] give
durations that sum to exactly `cueEnd - cueStart = 2`. -/
theorem karaokeDurations_roundtrip_witness :
    (karaokeDurations 0 [{ start := 0, stop := 1, text := "a" },
      { start := 1, stop := 2, text := "b" }]).sum = (2 : ℚ) - 0 :=
  (karaokeDurations_roundtrip 0 2 _ (by simp)
    (by simp [List.chain'_cons])).2 (by norm_num [List.getLast])

/-! ## Claim C4: strong-beat detection -/

theorem everyKth_index_lt (l : List ℤ) (k j : ℕ) (hk : 0 < k) (hj : j < l.length / k) :
    (j + 1) * k - 1 < l.length := by
  have h1 : (j + 1) * k ≤ l.length / k * k := Nat.mul_le_mul_right k (by omega)
  have h2 : l.length / k * k ≤ l.length := Nat.div_mul_le_self _ _
  have hk1 : 1 * 1 ≤ (j + 1) * k := Nat.mul_le_mul (by omega) hk
  omega

theorem everyKth_length (l : List ℤ) (k : ℕ) : (everyKth l k).length = l.length / k := by
  simp [everyKth]

theorem everyKth_get? (l : List ℤ) (k j : ℕ) (hk : 0 < k) (hj : j < l.length / k) :
    (everyKth l k).get? j = l.get? ((j + 1) * k - 1) := by
  have hidx := everyKth_index_lt l k j hk hj
  rw [everyKth, List.get?_eq_getElem?, List.get?_eq_getElem?]
  rw [List.getElem?_map, List.getElem?_range hj]
  simp only [Option.map_some']
  rw [List.getD_eq_getElem l 0 hidx, List.getElem?_eq_getElem hidx]

theorem everyKth_mem (l : List ℤ) (k : ℕ) (x : ℤ) (hk : 0 < k)
    (hx : x ∈ everyKth l k) : x ∈ l := by
  rw [everyKth, List.mem_map] at hx
  obtain ⟨j, hj, rfl⟩ := hx
  rw [List.mem_range] at hj
  rw [List.getD_eq_getElem l 0 (everyKth_index_lt l k j hk hj)]
  exact List.getElem_mem _

theorem detectStrongBeats_dramatic (l : List ℤ) :
    detectStrongBeats l (some .dramatic) = if l.length < 2 then [] else everyKth l 2 := by
  by_cases h : l.length < 2 <;>
    simp [detectStrongBeats, nominalPeriod, MIN_PERIOD, h]

theorem detectStrongBeats_rhythmic (l : List ℤ) :
    detectStrongBeats l (some .rhythmic) =
      if l.length < 4 then []
      else if 4 * medianGap l > 60 then everyKth l 2 else everyKth l 4 := by
  by_cases h : l.length < 4
  · simp [detectStrongBeats, nominalPeriod, h]
  · by_cases hg : 4 * medianGap l > 60 <;>
      simp [detectStrongBeats, nominalPeriod, MIN_PERIOD,
        MIN_STRONG_BEAT_INTERVAL_FRAMES, h, hg]

theorem detectStrongBeats_viral (l : List ℤ) :
    detectStrongBeats l (some .viral) = detectStrongBeats l (some .rhythmic) := by
  simp [detectStrongBeats, nominalPeriod]

/-- C4: strong beats are every period-th beat — period 2 for "dramatic", 4 for
"rhythmic"/"viral" — so with K beats the count is K/2 (dramatic) or K/4
(rhythmic/viral); when the nominal period times the median inter-beat gap
exceeds the 60-frame (~2 s) ceiling and the period is above the minimum, the
period is reduced to 2 (count K/2); with fewer than the nominal period of
beats the result is empty. The j-th strong beat is the input beat at index
(j+1)*period - 1, and the result is a pure function of the input. -/
theorem detectStrongBeats_spec (l : List ℤ) :
    (detectStrongBeats l (some .dramatic) = if l.length < 2 then [] else everyKth l 2)
    ∧ (detectStrongBeats l (some .rhythmic) =
        if l.length < 4 then []
        else if 4 * medianGap l > 60 then everyKth l 2 else everyKth l 4)
    ∧ (detectStrongBeats l (some .viral) = detectStrongBeats l (some .rhythmic))
    ∧ (2 ≤ l.length → (detectStrongBeats l (some .dramatic)).length = l.length / 2)
    ∧ (4 ≤ l.length → ¬(4 * medianGap l > 60) →
        (detectStrongBeats l (some .rhythmic)).length = l.length / 4
        ∧ (detectStrongBeats l (some .viral)).length = l.length / 4)
    ∧ (4 ≤ l.length → 4 * medianGap l > 60 →
        (detectStrongBeats l (some .rhythmic)).length = l.length / 2)
    ∧ (∀ j k, (k = 2 ∨ k = 4) → j < l.length / k →
        (everyKth l k).get? j = l.get? ((j + 1) * k - 1)) := by
  refine ⟨detectStrongBeats_dramatic l, detectStrongBeats_rhythmic l,
    detectStrongBeats_viral l, ?_, ?_, ?_, ?_⟩
  · intro h2
    rw [detectStrongBeats_dramatic l, if_neg (by omega), everyKth_length]
  · intro h4 hg
    rw [detectStrongBeats_viral l, detectStrongBeats_rhythmic l,
      if_neg (by omega), if_neg hg, everyKth_length]
    exact ⟨rfl, rfl⟩
  · intro h4 hg
    rw [detectStrongBeats_rhythmic l, if_neg (by omega), if_pos hg, everyKth_length]
  · intro j k hk hj
    exact everyKth_get? l k j (by rcases hk with rfl | rfl <;> omega) hj

/-- Witness for C4 at eight evenly spaced beats (gap 10 frames, median 10,
4 * 10 ≤ 60 so no period reduction): dramatic keeps every 2nd beat, four of
eight; rhythmic keeps every 4th, two of eight. -/
theorem detectStrongBeats_spec_witness :
    detectStrongBeats [0, 10, 20, 30, 40, 50, 60, 70] (some .dramatic) = [10, 30, 50, 70]
    ∧ (detectStrongBeats [0, 10, 20, 30, 40, 50, 60, 70] (some .rhythmic)).length = 2 := by
  have h := detectStrongBeats_spec [0, 10, 20, 30, 40, 50, 60, 70]
  constructor
  · rw [h.1]
    decide
  · have := (h.2.2.2.2.1 (by decide) (by decide)).1
    simpa using this

/-! ## Claims C6 and C10: runBeatSync duration handling and frame bounds -/

theorem getAudioDurationSec_nonneg (r : Option ℚ) : 0 ≤ getAudioDurationSec r := by
  rcases r with _ | sec
  · norm_num [getAudioDurationSec]
  · show 0 ≤ if 0 < sec then sec else 0
    split <;> linarith

theorem jsRound_nonneg (q : ℚ) (h : 0 ≤ q) : 0 ≤ jsRound q :=
  Int.le_floor.mpr (by push_cast; linarith)

theorem jsRound_mono (p q : ℚ) (h : p ≤ q) : jsRound p ≤ jsRound q :=
  Int.floor_le_floor (by linarith)

theorem extractBeatsFallback_mem (d t : ℚ) (ht : t ∈ extractBeatsFallback d) :
    0 ≤ t ∧ t < max 1 d := by
  simp only [extractBeatsFallback, List.mem_map, List.mem_range] at ht
  revert ht
  generalize hI : (if max 1 d < 20 then (1 : ℚ) / 2
      else if max 1 d < 45 then 11 / 20
      else if max 1 d < 90 then 3 / 5
      else 13 / 20) = I
  intro ht
  have hpos : 0 < I := by
    rw [← hI]
    split_ifs <;> norm_num
  obtain ⟨k, hk, rfl⟩ := ht
  have hklt := Nat.lt_ceil.mp hk
  exact ⟨mul_nonneg (Nat.cast_nonneg k) hpos.le, (lt_div_iff hpos).mp hklt⟩

theorem nominalPeriod_pos (p : Option PacingStyle) : 0 < nominalPeriod p := by
  unfold nominalPeriod DEFAULT_PERIOD
  split <;> norm_num

theorem detectStrongBeats_subset (l : List ℤ) (p : Option PacingStyle) (x : ℤ)
    (hx : x ∈ detectStrongBeats l p) : x ∈ l := by
  simp only [detectStrongBeats] at hx
  by_cases h : l.length < nominalPeriod p
  · rw [if_pos h] at hx
    simp at hx
  · rw [if_neg h] at hx
    refine everyKth_mem l _ x ?_ hx
    split
    · norm_num [MIN_PERIOD]
    · exact nominalPeriod_pos p

theorem beatListBound (raw : List ℚ) (d : ℚ) (hd60 : d ≤ 60)
    (hb : ∀ t ∈ extractBeats raw, t ≤ d) (x : ℤ)
    (hx : x ∈ (if extractBeats raw = [] then extractBeatsFallback d
                else extractBeats raw).map (fun t => jsRound (t * 30))) :
    0 ≤ x ∧ x ≤ max MIN_DURATION_FRAMES (min MAX_ALLOWED_FRAMES (jsRound (d * 30))) := by
  have hX : jsRound (d * 30) ≤ MAX_ALLOWED_FRAMES := by
    have hfl : (⌊d * 30 + 1 / 2⌋ : ℤ) < 1801 := Int.floor_lt.mpr (by push_cast; linarith)
    unfold jsRound MAX_ALLOWED_FRAMES
    omega
  have hmin : min MAX_ALLOWED_FRAMES (jsRound (d * 30)) = jsRound (d * 30) :=
    min_eq_right hX
  rcases List.mem_map.mp hx with ⟨t, ht, rfl⟩
  by_cases he : extractBeats raw = []
  · rw [if_pos he] at ht
    obtain ⟨ht0, htlt⟩ := extractBeatsFallback_mem d t ht
    refine ⟨jsRound_nonneg _ (mul_nonneg ht0 (by norm_num)), ?_⟩
    rcases le_or_lt 1 d with h1 | h1
    · have htd : t ≤ d := le_of_lt (by rwa [max_eq_right h1] at htlt)
      have := jsRound_mono (t * 30) (d * 30)
        (mul_le_mul_of_nonneg_right htd (by norm_num))
      rw [hmin]
      exact le_trans this (le_max_right _ _)
    · have ht1 : t < 1 := by rwa [max_eq_left h1.le] at htlt
      have h30 : jsRound (t * 30) ≤ 30 := by
        have hfl : (⌊t * 30 + 1 / 2⌋ : ℤ) < 31 := by
          refine Int.floor_lt.mpr ?_
          have : t * 30 < 1 * 30 := mul_lt_mul_of_pos_right ht1 (by norm_num)
          push_cast
          linarith
        unfold jsRound
        omega
      refine le_trans h30 (le_trans ?_ (le_max_left _ _))
      unfold MIN_DURATION_FRAMES
      omega
  · rw [if_neg he] at ht
    have ht0 : 0 ≤ t := by
      have := (List.mem_filter.mp ht).2
      simpa using this
    have htd : t ≤ d := hb t ht
    refine ⟨jsRound_nonneg _ (mul_nonneg ht0 (by norm_num)), ?_⟩
    have := jsRound_mono (t * 30) (d * 30)
      (mul_le_mul_of_nonneg_right htd (by norm_num))
    rw [hmin]
    exact le_trans this (le_max_right _ _)


theorem runBeatSync_total (env : BeatSyncEnv) (style : PacingStyle) (imageCount : ℕ)
    (fps : ℚ) :
    (runBeatSync env style imageCount fps).totalDurationInFrames =
      max MIN_DURATION_FRAMES (min MAX_ALLOWED_FRAMES
        (jsRound ((if getAudioDurationSec env.rawProbe ≤ 0 then DURATION_FALLBACK_SEC
          else getAudioDurationSec env.rawProbe) * fps))) := by
  by_cases hs : style = PacingStyle.smooth <;> simp [runBeatSync, hs]

theorem runBeatSync_beatFrames (env : BeatSyncEnv) (style : PacingStyle) (imageCount : ℕ)
    (fps : ℚ) (hs : style ≠ PacingStyle.smooth) :
    (runBeatSync env style imageCount fps).beatFrames =
      (if extractBeats env.rawBeatStdout = [] then
          extractBeatsFallback (if getAudioDurationSec env.rawProbe ≤ 0
            then DURATION_FALLBACK_SEC else getAudioDurationSec env.rawProbe)
        else extractBeats env.rawBeatStdout).map (fun t => jsRound (t * fps)) := by
  simp [runBeatSync, hs]

theorem runBeatSync_strongBeatFrames (env : BeatSyncEnv) (style : PacingStyle)
    (imageCount : ℕ) (fps : ℚ) (hs : style ≠ PacingStyle.smooth) :
    (runBeatSync env style imageCount fps).strongBeatFrames =
      detectStrongBeats ((runBeatSync env style imageCount fps).beatFrames) (some style) := by
  simp [runBeatSync, hs]

theorem runBeatSync_cutFrames (env : BeatSyncEnv) (style : PacingStyle) (imageCount : ℕ)
    (fps : ℚ) : (runBeatSync env style imageCount fps).cutFrames = [] := by
  by_cases hs : style = PacingStyle.smooth <;> simp [runBeatSync, hs, generateCutPoints]

theorem runBeatSync_warned_iff (env : BeatSyncEnv) (style : PacingStyle) (imageCount : ℕ)
    (fps : ℚ) :
    (runBeatSync env style imageCount fps).warned = true
      ↔ getAudioDurationSec env.rawProbe ≤ 0 := by
  by_cases hs : style = PacingStyle.smooth <;>
    by_cases hp : getAudioDurationSec env.rawProbe ≤ 0 <;>
    simp [runBeatSync, hs, hp]

theorem runBeatSync_smooth_beats (env : BeatSyncEnv) (imageCount : ℕ) (fps : ℚ) :
    (runBeatSync env PacingStyle.smooth imageCount fps).beatFrames = []
    ∧ (runBeatSync env PacingStyle.smooth imageCount fps).strongBeatFrames = [] := by
  simp [runBeatSync]

/-- C6: `runBeatSync` always clamps its returned `totalDurationInFrames` into
[MIN_DURATION_FRAMES, MAX_ALLOWED_FRAMES] = [900, 1800] before beat extraction
runs (the clamp is computed from the probed duration alone, and the clamped
value is the one carried into the returned record alongside the beat data),
and whenever the external duration probe failed or reported a non-positive
duration it logs the degraded-mode warning and behaves exactly as if the probe
had reported the documented 45 s fallback: every returned field except the
warning flag agrees with a run whose probe returned 45. -/
theorem runBeatSync_clamp_fallback (env : BeatSyncEnv) (style : PacingStyle)
    (imageCount : ℕ) (fps : ℚ) :
    (MIN_DURATION_FRAMES ≤ (runBeatSync env style imageCount fps).totalDurationInFrames
      ∧ (runBeatSync env style imageCount fps).totalDurationInFrames ≤ MAX_ALLOWED_FRAMES)
    ∧ (getAudioDurationSec env.rawProbe ≤ 0 →
        (runBeatSync env style imageCount fps).warned = true
        ∧ (runBeatSync env style imageCount fps).beatFrames
            = (runBeatSync ⟨some DURATION_FALLBACK_SEC, env.rawBeatStdout⟩
                style imageCount fps).beatFrames
        ∧ (runBeatSync env style imageCount fps).strongBeatFrames
            = (runBeatSync ⟨some DURATION_FALLBACK_SEC, env.rawBeatStdout⟩
                style imageCount fps).strongBeatFrames
        ∧ (runBeatSync env style imageCount fps).cutFrames
            = (runBeatSync ⟨some DURATION_FALLBACK_SEC, env.rawBeatStdout⟩
                style imageCount fps).cutFrames
        ∧ (runBeatSync env style imageCount fps).totalDurationInFrames
            = (runBeatSync ⟨some DURATION_FALLBACK_SEC, env.rawBeatStdout⟩
                style imageCount fps).totalDurationInFrames)
    ∧ (¬ getAudioDurationSec env.rawProbe ≤ 0 →
        (runBeatSync env style imageCount fps).warned = false) := by
  have hd45 : getAudioDurationSec (some DURATION_FALLBACK_SEC) = DURATION_FALLBACK_SEC := by
    norm_num [getAudioDurationSec, DURATION_FALLBACK_SEC]
  have hne45 : ¬ (getAudioDurationSec (some DURATION_FALLBACK_SEC) ≤ 0) := by
    rw [hd45]
    norm_num [DURATION_FALLBACK_SEC]
  refine ⟨?_, ?_, ?_⟩
  · rw [runBeatSync_total]
    exact ⟨le_max_left _ _,
      max_le (by norm_num [MIN_DURATION_FRAMES, MAX_ALLOWED_FRAMES]) (min_le_left _ _)⟩
  · intro hp
    have hbeats : (runBeatSync env style imageCount fps).beatFrames
        = (runBeatSync ⟨some DURATION_FALLBACK_SEC, env.rawBeatStdout⟩
            style imageCount fps).beatFrames := by
      by_cases hs : style = PacingStyle.smooth
      · rw [hs, (runBeatSync_smooth_beats env imageCount fps).1,
          (runBeatSync_smooth_beats ⟨some DURATION_FALLBACK_SEC, env.rawBeatStdout⟩
            imageCount fps).1]
      · rw [runBeatSync_beatFrames env style imageCount fps hs,
          runBeatSync_beatFrames ⟨some DURATION_FALLBACK_SEC, env.rawBeatStdout⟩
            style imageCount fps hs]
        simp [hp, hne45, hd45]
    refine ⟨(runBeatSync_warned_iff env style imageCount fps).mpr hp, hbeats, ?_, ?_, ?_⟩
    · by_cases hs : style = PacingStyle.smooth
      · rw [hs, (runBeatSync_smooth_beats env imageCount fps).2,
          (runBeatSync_smooth_beats ⟨some DURATION_FALLBACK_SEC, env.rawBeatStdout⟩
            imageCount fps).2]
      · rw [runBeatSync_strongBeatFrames env style imageCount fps hs,
          runBeatSync_strongBeatFrames ⟨some DURATION_FALLBACK_SEC, env.rawBeatStdout⟩
            style imageCount fps hs, hbeats]
    · rw [runBeatSync_cutFrames, runBeatSync_cutFrames]
    · rw [runBeatSync_total, runBeatSync_total]
      simp [hp, hne45, hd45]
  · intro hp
    have := runBeatSync_warned_iff env style imageCount fps
    rcases h : (runBeatSync env style imageCount fps).warned with _ | _
    · rfl
    · exact absurd (this.mp h) hp

/-- Witness for C6: with a failed probe the warning fires and the total is the
clamped fallback `round(45 * 30) = 1350` frames, inside [900, 1800]. -/
theorem runBeatSync_clamp_fallback_witness :
    (runBeatSync ⟨none, []⟩ PacingStyle.smooth 4 30).warned = true
    ∧ MIN_DURATION_FRAMES ≤ (runBeatSync ⟨none, []⟩ PacingStyle.smooth 4 30).totalDurationInFrames
    ∧ (runBeatSync ⟨none, []⟩ PacingStyle.smooth 4 30).totalDurationInFrames = 1350 :=
  ⟨((runBeatSync_clamp_fallback ⟨none, []⟩ PacingStyle.smooth 4 30).2.1
      (by norm_num [getAudioDurationSec])).1,
    (runBeatSync_clamp_fallback ⟨none, []⟩ PacingStyle.smooth 4 30).1.1,
    by norm_num [runBeatSync_total, getAudioDurationSec, jsRound, DURATION_FALLBACK_SEC,
      MIN_DURATION_FRAMES, MAX_ALLOWED_FRAMES]⟩

theorem beatListNonneg (raw : List ℚ) (d : ℚ) (x : ℤ)
    (hx : x ∈ (if extractBeats raw = [] then extractBeatsFallback d
                else extractBeats raw).map (fun t => jsRound (t * 30))) : 0 ≤ x := by
  rcases List.mem_map.mp hx with ⟨t, ht, rfl⟩
  by_cases he : extractBeats raw = []
  · rw [if_pos he] at ht
    exact jsRound_nonneg _ (mul_nonneg (extractBeatsFallback_mem d t ht).1 (by norm_num))
  · rw [if_neg he] at ht
    have ht0 : 0 ≤ t := by
      have := (List.mem_filter.mp ht).2
      simpa using this
    exact jsRound_nonneg _ (mul_nonneg ht0 (by norm_num))

/-- C10 (amended): every frame value produced by the beat-sync stage is,
unconditionally, a non-negative integer, and the cut set is always empty; the
frame values are additionally bounded by the returned total duration whenever
every extracted beat timestamp is at most the (fallback-substituted) probed
duration and that duration does not exceed the 60 s clamp ceiling. (When the
audio is longer than 60 s, the total is clamped down to 1800 frames but the
beat frames are not, so the bound can fail — see the counterexample.) -/
theorem runBeatSync_frames_bounded (env : BeatSyncEnv) (style : PacingStyle)
    (imageCount : ℕ) :
    (∀ x ∈ (runBeatSync env style imageCount 30).beatFrames, 0 ≤ x)
    ∧ (∀ x ∈ (runBeatSync env style imageCount 30).strongBeatFrames, 0 ≤ x)
    ∧ (runBeatSync env style imageCount 30).cutFrames = []
    ∧ ((if getAudioDurationSec env.rawProbe ≤ 0 then DURATION_FALLBACK_SEC
          else getAudioDurationSec env.rawProbe) ≤ 60 →
        (∀ t ∈ extractBeats env.rawBeatStdout,
          t ≤ (if getAudioDurationSec env.rawProbe ≤ 0 then DURATION_FALLBACK_SEC
                else getAudioDurationSec env.rawProbe)) →
        (∀ x ∈ (runBeatSync env style imageCount 30).beatFrames,
            x ≤ (runBeatSync env style imageCount 30).totalDurationInFrames)
        ∧ (∀ x ∈ (runBeatSync env style imageCount 30).strongBeatFrames,
            x ≤ (runBeatSync env style imageCount 30).totalDurationInFrames)) := by
  have hstrongmem : ∀ x ∈ (runBeatSync env style imageCount 30).strongBeatFrames,
      x ∈ (runBeatSync env style imageCount 30).beatFrames := by
    intro x hx
    by_cases hs : style = PacingStyle.smooth
    · rw [hs, (runBeatSync_smooth_beats env imageCount 30).2] at hx
      simp at hx
    · rw [runBeatSync_strongBeatFrames env style imageCount 30 hs] at hx
      exact detectStrongBeats_subset _ _ x hx
  have hnonneg : ∀ x ∈ (runBeatSync env style imageCount 30).beatFrames, 0 ≤ x := by
    intro x hx
    by_cases hs : style = PacingStyle.smooth
    · rw [hs, (runBeatSync_smooth_beats env imageCount 30).1] at hx
      simp at hx
    · rw [runBeatSync_beatFrames env style imageCount 30 hs] at hx
      exact beatListNonneg env.rawBeatStdout _ x hx
  refine ⟨hnonneg, fun x hx => hnonneg x (hstrongmem x hx),
    runBeatSync_cutFrames env style imageCount 30, ?_⟩
  intro hd hb
  have hbound : ∀ x ∈ (runBeatSync env style imageCount 30).beatFrames,
      x ≤ (runBeatSync env style imageCount 30).totalDurationInFrames := by
    intro x hx
    by_cases hs : style = PacingStyle.smooth
    · rw [hs, (runBeatSync_smooth_beats env imageCount 30).1] at hx
      simp at hx
    · rw [runBeatSync_beatFrames env style imageCount 30 hs] at hx
      rw [runBeatSync_total]
      exact (beatListBound env.rawBeatStdout _ hd hb x hx).2
  exact ⟨hbound, fun x hx => hbound x (hstrongmem x hx)⟩

/-- Counterexample to C10 as stated: a 120 s audio track with a (realistic)
beat at 100 s; the total duration is clamped to 1800 frames but the beat list
still carries frame 3000, exceeding the total. -/
theorem runBeatSync_frames_bounded_counterexample :
    (runBeatSync ⟨some 120, [100]⟩ PacingStyle.rhythmic 4 30).beatFrames = [3000]
    ∧ (runBeatSync ⟨some 120, [100]⟩ PacingStyle.rhythmic 4 30).totalDurationInFrames = 1800
    ∧ ¬ ((3000 : ℤ)
          ≤ (runBeatSync ⟨some 120, [100]⟩ PacingStyle.rhythmic 4 30).totalDurationInFrames) := by
  refine ⟨?_, ?_, ?_⟩
  · rw [runBeatSync_beatFrames ⟨some 120, [100]⟩ PacingStyle.rhythmic 4 30 (by decide)]
    norm_num [extractBeats, getAudioDurationSec, jsRound]
  · rw [runBeatSync_total]
    norm_num [getAudioDurationSec, jsRound, DURATION_FALLBACK_SEC,
      MIN_DURATION_FRAMES, MAX_ALLOWED_FRAMES]
  · rw [runBeatSync_total]
    norm_num [getAudioDurationSec, jsRound, DURATION_FALLBACK_SEC,
      MIN_DURATION_FRAMES, MAX_ALLOWED_FRAMES]

/-- Witness for C10 (amended) on a 50 s track with beats at 10 s and 20 s:
beat frame 300 is non-negative and below the 1500-frame total. -/
theorem runBeatSync_frames_bounded_witness :
    (0 : ℤ) ≤ 300
    ∧ (300 : ℤ) ≤ (runBeatSync ⟨some 50, [10, 20]⟩ PacingStyle.rhythmic 4 30).totalDurationInFrames := by
  have hmem : (300 : ℤ) ∈ (runBeatSync ⟨some 50, [10, 20]⟩ PacingStyle.rhythmic 4 30).beatFrames := by
    rw [runBeatSync_beatFrames ⟨some 50, [10, 20]⟩ PacingStyle.rhythmic 4 30 (by decide)]
    have he : extractBeats [10, 20] = [10, 20] := by norm_num [extractBeats]
    rw [he, if_neg (by decide : ¬([10, 20] : List ℚ) = [])]
    have h10 : jsRound ((10 : ℚ) * 30) = 300 := by norm_num [jsRound]
    simp [h10]
  have h := runBeatSync_frames_bounded ⟨some 50, [10, 20]⟩ PacingStyle.rhythmic 4
  exact ⟨h.1 300 hmem,
    (h.2.2.2 (by norm_num [getAudioDurationSec])
      (by
        intro t ht
        simp [extractBeats, getAudioDurationSec] at ht ⊢
        rcases ht with rfl | rfl <;> norm_num)).1 300 hmem⟩

/-! ## Claim C7: remote render fatal errors and the poll timeout -/

theorem pollRemotionRender_timeout (progressAt : ℕ → RenderProgress) :
    ∀ (fuel i : ℕ),
      (∀ j, j < fuel → (progressAt (i + j)).done = false
          ∧ (progressAt (i + j)).fatalErrorEncountered = false) →
      pollRemotionRender progressAt fuel i = .error REMOTION_TIMEOUT_MSG := by
  intro fuel
  induction fuel with
  | zero => intro i _; rfl
  | succ f ih =>
    intro i h
    have h0 := h 0 (Nat.succ_pos f)
    rw [Nat.add_zero] at h0
    simp only [pollRemotionRender, h0.1, h0.2, Bool.false_eq_true, if_false]
    refine ih (i + 1) (fun j hj => ?_)
    have := h (j + 1) (by omega)
    rwa [show i + (j + 1) = i + 1 + j by omega] at this

theorem pollRemotionRender_fatal (progressAt : ℕ → RenderProgress) :
    ∀ (k fuel i : ℕ), k < fuel →
      (∀ j, j < k → (progressAt (i + j)).done = false
          ∧ (progressAt (i + j)).fatalErrorEncountered = false) →
      (progressAt (i + k)).done = false →
      (progressAt (i + k)).fatalErrorEncountered = true →
      pollRemotionRender progressAt fuel i
        = .error ((progressAt (i + k)).errorMessage.getD "Remotion render failed") := by
  intro k
  induction k with
  | zero =>
    intro fuel i hk hpend hdone hfatal
    rcases fuel with _ | f
    · omega
    · rw [Nat.add_zero] at hdone hfatal
      simp only [pollRemotionRender, hdone, hfatal, Bool.false_eq_true, if_false, if_true,
        Nat.add_zero]
  | succ n ih =>
    intro fuel i hk hpend hdone hfatal
    rcases fuel with _ | f
    · omega
    · have h0 := hpend 0 (Nat.succ_pos n)
      rw [Nat.add_zero] at h0
      simp only [pollRemotionRender, h0.1, h0.2, Bool.false_eq_true, if_false]
      have hidx : i + (n + 1) = i + 1 + n := by omega
      rw [hidx] at hdone hfatal
      have hres := ih f (i + 1) (by omega)
        (fun j hj => by
          have := hpend (j + 1) (by omega)
          rwa [show i + (j + 1) = i + 1 + j by omega] at this)
        hdone hfatal
      rw [hres, hidx]

theorem startsWithCL_refl (l : List Char) : startsWithCL l l = true := by
  induction l with
  | nil => rfl
  | cons a as ih => simp [startsWithCL, ih]

theorem strContains_self (s : String) : strContains s s = true := by
  unfold strContains
  cases h : s.data with
  | nil => rfl
  | cons c cs =>
    have := startsWithCL_refl (c :: cs)
    simp [hasSubstrCL, this]

/-- C7: when a poll reports `fatalErrorEncountered` (and is not done), the
poll loop raises an error whose message is exactly the remote error message
(the fixed default when none was sent) — so the raised message contains the
remote message — and the worker's catch then marks the step failed with that
message, leaves the parent media untouched, and re-throws; when every poll
before the deadline is still pending, the loop raises the distinct fixed
timeout error instead. -/
theorem remotionRender_fatal_and_timeout (progressAt : ℕ → RenderProgress)
    (fuel i k : ℕ) (s : FinState) :
    ((∀ j, j < fuel → (progressAt (i + j)).done = false
        ∧ (progressAt (i + j)).fatalErrorEncountered = false) →
      pollRemotionRender progressAt fuel i = .error REMOTION_TIMEOUT_MSG)
    ∧ (k < fuel →
        (∀ j, j < k → (progressAt (i + j)).done = false
            ∧ (progressAt (i + j)).fatalErrorEncountered = false) →
        (progressAt (i + k)).done = false →
        (progressAt (i + k)).fatalErrorEncountered = true →
        pollRemotionRender progressAt fuel i
          = .error ((progressAt (i + k)).errorMessage.getD "Remotion render failed")
        ∧ (∀ msg, (progressAt (i + k)).errorMessage = some msg →
            pollRemotionRender progressAt fuel i = .error msg
            ∧ strContains msg msg = true)
        ∧ (remotionWorkerHandle (pollRemotionRender progressAt fuel i) s).1.stepStatus
            = "failed"
        ∧ (remotionWorkerHandle (pollRemotionRender progressAt fuel i) s).1.stepError
            = some ((progressAt (i + k)).errorMessage.getD "Remotion render failed")
        ∧ (remotionWorkerHandle (pollRemotionRender progressAt fuel i) s).1.mediaStatus
            = s.mediaStatus
        ∧ (remotionWorkerHandle (pollRemotionRender progressAt fuel i) s).2
            = pollRemotionRender progressAt fuel i) := by
  refine ⟨pollRemotionRender_timeout progressAt fuel i, ?_⟩
  intro hk hpend hdone hfatal
  have hp := pollRemotionRender_fatal progressAt k fuel i hk hpend hdone hfatal
  refine ⟨hp, ?_, ?_, ?_, ?_, ?_⟩
  · intro msg hmsg
    rw [hp, hmsg]
    exact ⟨rfl, strContains_self msg⟩
  · rw [hp]
    rfl
  · rw [hp]
    rfl
  · rw [hp]
    rfl
  · rw [hp]
    rfl

/-- Witness for C7: an always-pending render times out after three polls, and
a render whose second poll reports a fatal "boom" raises exactly "boom". -/
theorem remotionRender_fatal_and_timeout_witness :
    pollRemotionRender (fun _ => ⟨false, false, none, none, none⟩) 3 0
      = .error REMOTION_TIMEOUT_MSG
    ∧ pollRemotionRender (fun n => if n = 1 then ⟨false, true, some "boom", none, none⟩
        else ⟨false, false, none, none, none⟩) 5 0 = .error "boom" := by
  constructor
  · exact (remotionRender_fatal_and_timeout (fun _ => ⟨false, false, none, none, none⟩)
      3 0 0 ⟨"processing", none, none, "processing", none, 0, 0, 0, 0⟩).1
      (fun j _ => ⟨rfl, rfl⟩)
  · exact (((remotionRender_fatal_and_timeout
        (fun n => if n = 1 then ⟨false, true, some "boom", none, none⟩
          else ⟨false, false, none, none, none⟩)
        5 0 1 ⟨"processing", none, none, "processing", none, 0, 0, 0, 0⟩).2
      (by omega)
      (fun j hj => by
        have : j = 0 := by omega
        subst this
        exact ⟨rfl, rfl⟩)
      rfl rfl).2.1 "boom" rfl).1

/-! ## Claim C8: language-aware font selection -/

theorem startsWithCL_append (n : List Char) :
    ∀ (h t : List Char), startsWithCL n h = true → startsWithCL n (h ++ t) = true := by
  induction n with
  | nil => intro h t _; rfl
  | cons a as ih =>
    intro h t hs
    cases h with
    | nil => exact absurd hs (by simp [startsWithCL])
    | cons b bs =>
      simp only [startsWithCL, Bool.and_eq_true, decide_eq_true_eq] at hs
      simp only [List.cons_append, startsWithCL, Bool.and_eq_true, decide_eq_true_eq]
      exact ⟨hs.1, ih bs t hs.2⟩

theorem hasSubstrCL_of_starts (n h : List Char) (hs : startsWithCL n h = true) :
    hasSubstrCL n h = true := by
  cases h with
  | nil => exact hs
  | cons c cs => simp [hasSubstrCL, hs]

theorem hasSubstrCL_append_right (n : List Char) :
    ∀ (a b : List Char), hasSubstrCL n a = true → hasSubstrCL n (a ++ b) = true := by
  intro a
  induction a with
  | nil =>
    intro b h
    cases n with
    | nil =>
      cases b with
      | nil => rfl
      | cons c cs => simp [hasSubstrCL, startsWithCL]
    | cons x xs => exact absurd h (by simp [hasSubstrCL, startsWithCL])
  | cons c a' ih =>
    intro b h
    simp only [hasSubstrCL, Bool.or_eq_true] at h
    rcases h with h | h
    · simp only [List.cons_append, hasSubstrCL, Bool.or_eq_true]
      exact Or.inl (startsWithCL_append n (c :: a') b h)
    · simp only [List.cons_append, hasSubstrCL, Bool.or_eq_true]
      exact Or.inr (ih b h)

theorem hasSubstrCL_append_left (n : List Char) :
    ∀ (a b : List Char), hasSubstrCL n b = true → hasSubstrCL n (a ++ b) = true := by
  intro a
  induction a with
  | nil => intro b h; exact h
  | cons c a' ih =>
    intro b h
    simp only [List.cons_append, hasSubstrCL, Bool.or_eq_true]
    exact Or.inr (ih b h)

theorem strContains_append_left (a b n : String) (h : strContains a n = true) :
    strContains (a ++ b) n = true := by
  unfold strContains at h ⊢
  rw [String.data_append]
  exact hasSubstrCL_append_right n.data a.data b.data h

theorem strContains_append_right (a b n : String) (h : strContains b n = true) :
    strContains (a ++ b) n = true := by
  unfold strContains at h ⊢
  rw [String.data_append]
  exact hasSubstrCL_append_left n.data a.data b.data h

theorem assStyleDef_contains_font (fontName preset position : String) :
    strContains (assStyleDef fontName preset position) fontName = true := by
  simp only [assStyleDef]
  split_ifs <;>
    exact strContains_append_left _ _ _ (strContains_append_left _ _ _
      (strContains_append_left _ _ _ (strContains_append_left _ _ _
        (strContains_append_left _ _ _
          (strContains_append_right _ _ _ (strContains_self fontName))))))

theorem assGenerate_contains_font (captions : List AssCue) (preset position : String)
    (lang : Option String) :
    strContains (assGenerate captions preset position lang)
      (if isHindiLanguage lang then FONT_HINDI else FONT_DEFAULT) = true := by
  simp only [assGenerate]
  exact strContains_append_left _ _ _ (strContains_append_left _ _ _
    (strContains_append_right _ _ _ (assStyleDef_contains_font _ preset position)))

/-- C8 (amended): the generated markup's style block carries the font selected
by the `isHindiLanguage` heuristic: a tag the heuristic matches — "Hindi" in
particular — selects 'Noto Sans Devanagari', and a missing tag or a tag the
heuristic does not match (such as "English" or "en") selects 'Arial'. The
heuristic is a case-insensitive substring test for "hi"/"hindi"/"हिंदी", not a
script classification, so some Latin-script tags also match it — see the
counterexample. -/
theorem assGenerate_font_selection (captions : List AssCue) (preset position : String)
    (lang : Option String) :
    (isHindiLanguage lang = true →
      strContains (assGenerate captions preset position lang) FONT_HINDI = true)
    ∧ (isHindiLanguage lang = false →
      strContains (assGenerate captions preset position lang) FONT_DEFAULT = true)
    ∧ isHindiLanguage (some "Hindi") = true
    ∧ isHindiLanguage none = false
    ∧ isHindiLanguage (some "English") = false
    ∧ isHindiLanguage (some "en") = false := by
  refine ⟨?_, ?_, by decide, rfl, by decide, by decide⟩
  · intro h
    have hc := assGenerate_contains_font captions preset position lang
    rwa [if_pos h] at hc
  · intro h
    have hc := assGenerate_contains_font captions preset position lang
    rwa [if_neg (by simp [h])] at hc

set_option maxRecDepth 8000 in
/-- Counterexample to C8 as stated: "Swahili" is a Latin-script language tag,
yet the substring heuristic matches its "hi" and the generated style block
selects 'Noto Sans Devanagari' instead of 'Arial'. -/
theorem assGenerate_font_counterexample :
    isHindiLanguage (some "Swahili") = true
    ∧ strContains (assGenerate [] "karaoke-card" "bottom" (some "Swahili"))
        FONT_HINDI = true
    ∧ strContains (assGenerate [] "karaoke-card" "bottom" (some "Swahili"))
        FONT_DEFAULT = false := by
  refine ⟨by decide, ?_, by decide⟩
  have hc := assGenerate_contains_font [] "karaoke-card" "bottom" (some "Swahili")
  rwa [if_pos (by decide)] at hc

/-- Witness for C8: "Hindi" yields the Devanagari font, an untagged call the
default 'Arial'. -/
theorem assGenerate_font_selection_witness :
    strContains (assGenerate [] "bold-stroke" "top" (some "Hindi")) FONT_HINDI = true
    ∧ strContains (assGenerate [] "bold-stroke" "top" none) FONT_DEFAULT = true :=
  ⟨(assGenerate_font_selection [] "bold-stroke" "top" (some "Hindi")).1 (by decide),
    (assGenerate_font_selection [] "bold-stroke" "top" none).2.1 rfl⟩

/-! ## Claim C9: local-encode audio mixing -/

/-- C9 (code evaluation): with background music present, the constructed
audio filters volume-scale the narration at 1.0 and the music at the default
0.2 and mix them with a plain two-input `amix`; no narration split and no
sidechain compression instruction is emitted anywhere, contradicting the
documented sidechain-ducking behavior. -/
theorem buildAudioMix_no_ducking :
    (buildAudioMix 3 true none).2 = "[a_final]"
    ∧ (buildAudioMix 3 true none).1.length = 1
    ∧ strContains (String.join (buildAudioMix 3 true none).1) "amix=inputs=2" = true
    ∧ strContains (String.join (buildAudioMix 3 true none).1) "volume=1.0[vo]" = true
    ∧ strContains (String.join (buildAudioMix 3 true none).1) "sidechaincompress" = false
    ∧ strContains (String.join (buildAudioMix 3 true none).1) "asplit" = false := by
  exact ⟨rfl, rfl, by decide, by decide, by decide, by decide⟩
